import Mathlib

/-!
Shallow embedding of the scoring and financial-analysis core of the
`ecom-auditor` repository:

* `backend/app/services/audit_engine.py` — the `AuditEngine` class
  (legal / delivery / SEO / price dimension scorers, the orchestrator
  `calculate_total_score`, and `detect_shadow_ban`);
* `backend/app/services/financial_calculator.py` — `calculate_net_profit`
  and `calculate_break_even_price`.

Modelling conventions:

* Python floats are modelled by `ℚ`; `round(x, 2)` is `round2`.
* Python strings are modelled by `List Char`; Python `str.lower()` is
  modelled by `toLowerPy` (ASCII plus the Cyrillic range, which covers
  every alphabet the engine compares against); the Python substring test
  `needle in haystack` is `substrB`.
* A Python `Optional[...]` argument is an `Option`.  The engine tests the
  certificate and marking records with dict truthiness (`if d:`), under
  which `None` and the empty dict behave identically, so both map to
  `none`; a truthy dict maps to `some` of the single field the engine
  reads from it (`status` as `List Char`, `is_valid` as `Bool`).
* `RiskItem` keeps the two fields the engine's logic branches on (`type`,
  `severity`); the free-text `description` / `recommendation` display
  strings (Russian f-strings) carry no logic and are not modelled.
  Recommendations are likewise plain display strings in the source; they
  are modelled by the inductive `Recommendation`, one constructor per
  `self.recommendations.append(...)` site, carrying the dynamic data that
  the corresponding f-string interpolates.
* The mutable `self.risks` / `self.recommendations` lists of the
  `AuditEngine` instance are threaded explicitly as an `EngineState`;
  every method that appends to them takes and returns the state.
-/

/-- One entry of `self.risks` (schema `RiskItem`), restricted to the two
fields the engine's logic distinguishes. -/
structure RiskItem where
  type : String
  severity : String
deriving DecidableEq, Repr

/-- One entry of `self.recommendations`.  Each constructor corresponds to
one `self.recommendations.append(...)` site of `audit_engine.py`, with the
data interpolated into the f-string as argument. -/
inductive Recommendation where
  | certValid
  | markingValid
  | goodDelivery (hours : ℤ)
  | okDelivery (hours : ℤ)
  | goodRating (rating : ℚ)
  | mediumRating (rating : ℚ)
  | detailedDescription
  | extendDescription
deriving DecidableEq, Repr

/-- The per-run accumulator state of an `AuditEngine` instance:
`self.risks` and `self.recommendations`. -/
structure EngineState where
  risks : List RiskItem
  recommendations : List Recommendation
deriving DecidableEq, Repr

/-- A fresh engine (`AuditEngine.__init__`). -/
def emptyEngine : EngineState := ⟨[], []⟩

/-- Python `self.risks.append(r)`. -/
def pushRisk (r : RiskItem) (st : EngineState) : EngineState :=
  ⟨st.risks ++ [r], st.recommendations⟩

/-- Python `self.recommendations.append(r)`. -/
def pushRec (r : Recommendation) (st : EngineState) : EngineState :=
  ⟨st.risks, st.recommendations ++ [r]⟩

/-- Python `round(x, 2)` on our rational model of floats. -/
def round2 (x : ℚ) : ℚ := (round (x * 100) : ℤ) / 100

/-- Python `str.lower()` on one character, for the alphabets occurring in
the engine's comparisons: ASCII `A`–`Z` and Cyrillic `А`–`Я`, `Ё`. -/
def toLowerPy (c : Char) : Char :=
  if c.val ≥ 65 ∧ c.val ≤ 90 then Char.ofNat (c.toNat + 32)
  else if c.val ≥ 0x410 ∧ c.val ≤ 0x42F then Char.ofNat (c.toNat + 32)
  else if c.val = 0x401 then Char.ofNat 0x451
  else c

/-- Python `s.lower()`. -/
def lowerL (s : List Char) : List Char := s.map toLowerPy

/-- Python substring test `needle in haystack` for strings. -/
def substrB (needle hay : List Char) : Bool :=
  (List.range (hay.length + 1)).any (fun i => (hay.drop i).take needle.length == needle)

/-- The list literal `["действует", "valid", "active"]` that the active
certificate branch compares against with `in` (exact membership). -/
def activeTokens : List (List Char) :=
  ["действует".data, "valid".data, "active".data]

/-- The substring `"приостановлен"` of the suspended branch. -/
def suspWord : List Char := "приостановлен".data

/-- The substring `"аннулирован"` of the annulled branch. -/
def annWord : List Char := "аннулирован".data

def certificateSuspendedRisk : RiskItem := ⟨"certificate_suspended", "high"⟩
def certificateAnnulledRisk : RiskItem := ⟨"certificate_annulled", "critical"⟩
def certificateMissingRisk : RiskItem := ⟨"certificate_missing", "critical"⟩
def markingInvalidRisk : RiskItem := ⟨"marking_invalid", "high"⟩
def deliveryUnknownRisk : RiskItem := ⟨"delivery_time_unknown", "medium"⟩
def slowDeliveryRisk : RiskItem := ⟨"slow_delivery", "medium"⟩
def verySlowDeliveryRisk : RiskItem := ⟨"very_slow_delivery", "high"⟩
def slowerThanCompetitorsRisk : RiskItem := ⟨"slower_than_competitors", "high"⟩
def lowRatingRisk : RiskItem := ⟨"low_rating", "high"⟩
def incompleteDescriptionRisk : RiskItem := ⟨"incomplete_description", "medium"⟩
def insufficientKeywordsRisk : RiskItem := ⟨"insufficient_keywords", "low"⟩
def priceDumpingRisk : RiskItem := ⟨"price_dumping", "medium"⟩
def shadowBanRisk : RiskItem := ⟨"shadow_ban_detected", "critical"⟩

/-- The certificate half of `AuditEngine._calculate_legal_score`
(the `# Certificate check (20 points)` block).  `cert = none` covers both
`certificate_status is None` and a falsy (empty) dict; `some s` is a
truthy dict whose `.get("status", "")` is `s`. -/
def legalCert (cert : Option (List Char)) (st : EngineState) : ℚ × EngineState :=
  match cert with
  | some s =>
    if lowerL s ∈ activeTokens then
      (20, pushRec Recommendation.certValid st)
    else if substrB suspWord (lowerL s) then
      (5, pushRisk certificateSuspendedRisk st)
    else if substrB annWord (lowerL s) then
      (0, pushRisk certificateAnnulledRisk st)
    else
      (0, st)
  | none => (0, pushRisk certificateMissingRisk st)

/-- The marking half of `AuditEngine._calculate_legal_score`
(the `# Marking check (20 points)` block).  `marking = none` covers
`marking_status is None` (full points for "not applicable"); `some b` is a
truthy dict whose `is_valid` field has truth value `b`. -/
def legalMarking (marking : Option Bool) (st : EngineState) : ℚ × EngineState :=
  match marking with
  | some b =>
    if b then (20, pushRec Recommendation.markingValid st)
    else (0, pushRisk markingInvalidRisk st)
  | none => (20, st)

/-- `AuditEngine._calculate_legal_score`: certificate points plus marking
points, returned as `min(score, MAX_LEGAL)`. -/
def calcLegal (cert : Option (List Char)) (marking : Option Bool)
    (st : EngineState) : ℚ × EngineState :=
  let c := legalCert cert st
  let m := legalMarking marking c.2
  (min (c.1 + m.1) 40, m.2)

/-- `AuditEngine._calculate_delivery_score`.  The guard
`if not delivery_time_hours:` is Python truthiness, so `none` and
`some 0` both take the unknown-delivery branch; likewise the competitor
benchmark guard `if competitor_avg_hours and ...` skips `none` and
`some 0`. -/
def calcDelivery (hours : Option ℤ) (competitorAvg : Option ℤ)
    (st : EngineState) : ℚ × EngineState :=
  if hours = none ∨ hours = some 0 then
    (15, pushRisk deliveryUnknownRisk st)
  else
    let h : ℤ := hours.getD 0
    let bucket : ℚ × EngineState :=
      if h ≤ 18 then (30, pushRec (Recommendation.goodDelivery h) st)
      else if h ≤ 24 then (25, pushRec (Recommendation.okDelivery h) st)
      else if h ≤ 48 then (15, pushRisk slowDeliveryRisk st)
      else (5, pushRisk verySlowDeliveryRisk st)
    let st2 : EngineState :=
      if ¬(competitorAvg = none ∨ competitorAvg = some 0)
          ∧ (h : ℚ) > (competitorAvg.getD 0 : ℤ) * 1.5 then
        pushRisk slowerThanCompetitorsRisk bucket.2
      else bucket.2
    (min bucket.1 30, st2)

/-- The rating half of `AuditEngine._calculate_seo_score`
(the `# Rating check (10 points)` block).  `if rating:` is Python
truthiness, so `none` and `some 0` both take the neutral `+5` branch. -/
def seoRating (rating : Option ℚ) (st : EngineState) : ℚ × EngineState :=
  match rating with
  | some r =>
    if r = 0 then (5, st)
    else if r ≥ 4.7 then (10, pushRec (Recommendation.goodRating r) st)
    else if r ≥ 4.0 then (7, pushRec (Recommendation.mediumRating r) st)
    else (3, pushRisk lowRatingRisk st)
  | none => (5, st)

/-- The description half of `AuditEngine._calculate_seo_score`
(the `# Description completeness (10 points)` block). -/
def seoDescription (description : List Char) (st : EngineState) : ℚ × EngineState :=
  if description.length ≥ 1000 then (10, pushRec Recommendation.detailedDescription st)
  else if description.length ≥ 500 then (7, pushRec Recommendation.extendDescription st)
  else (3, pushRisk incompleteDescriptionRisk st)

/-- `AuditEngine._calculate_seo_score`: rating points plus description
points, then the `# Keywords check` (risk only, no score effect), returned
as `min(score, MAX_SEO)`. -/
def calcSeo (rating : Option ℚ) (description : List Char)
    (keywords : List (List Char)) (st : EngineState) : ℚ × EngineState :=
  let r := seoRating rating st
  let d := seoDescription description r.2
  let st3 := if keywords.length < 5 then pushRisk insufficientKeywordsRisk d.2 else d.2
  (min (r.1 + d.1) 20, st3)

/-- The `for platform, price in competitor_prices.items():` loop of
`AuditEngine._calculate_price_score`, threading the running score and the
risk accumulator.  The list models the dict in its (insertion-ordered)
iteration order. -/
def priceLoop (p : ℚ) (comps : List (List Char × ℚ))
    (acc : ℚ × EngineState) : ℚ × EngineState :=
  match comps with
  | [] => acc
  | c :: rest =>
    priceLoop p rest
      (if c.2 < p * 0.95 then (acc.1 - 3, pushRisk priceDumpingRisk acc.2) else acc)

/-- `AuditEngine._calculate_price_score`.  `if not current_price:` is
Python truthiness, so `none` and `some 0` both return the neutral `5`;
otherwise the score starts at `10`, the competitor loop subtracts `3` per
dumping platform, and the result is `max(0.0, min(score, MAX_PRICE))`. -/
def calcPrice (price : Option ℚ) (comps : List (List Char × ℚ))
    (st : EngineState) : ℚ × EngineState :=
  match price with
  | none => (5, st)
  | some p =>
    if p = 0 then (5, st)
    else
      let r := priceLoop p comps (10, st)
      (max 0 (min r.1 10), r.2)

/-- The `product_data` snapshot, holding exactly the fields that
`AuditEngine.calculate_total_score` reads out of the dict (each field is
the value of the corresponding `product_data.get(...)`, with the `get`
defaults `""`, `[]`, `{}` already applied). -/
structure ProductData where
  delivery_time_hours : Option ℤ
  rating : Option ℚ
  description : List Char
  seo_keywords : List (List Char)
  current_price : Option ℚ
  competitor_prices : List (List Char × ℚ)

/-- The `AuditScores` schema returned by `calculate_total_score`. -/
structure AuditScores where
  total_score : ℚ
  legal_score : ℚ
  delivery_score : ℚ
  seo_score : ℚ
  price_score : ℚ
deriving DecidableEq, Repr

/-- `AuditEngine.calculate_total_score`: resets the accumulators
(`self.risks = []`, `self.recommendations = []`), runs the four dimension
scorers in order legal → delivery → seo → price, sums the scores, and
rounds everything to 2 decimals.  The final `EngineState` carries the
`self.risks` / `self.recommendations` lists that the method returns. -/
def calculate_total_score (pd : ProductData) (cert : Option (List Char))
    (marking : Option Bool) (competitor_delivery_time : Option ℤ)
    (_st : EngineState) : AuditScores × EngineState :=
  let st0 := emptyEngine
  let l := calcLegal cert marking st0
  let d := calcDelivery pd.delivery_time_hours competitor_delivery_time l.2
  let s := calcSeo pd.rating pd.description pd.seo_keywords d.2
  let p := calcPrice pd.current_price pd.competitor_prices s.2
  let total := l.1 + d.1 + s.1 + p.1
  (⟨round2 total, round2 l.1, round2 d.1, round2 s.1, round2 p.1⟩, p.2)

/-- `AuditEngine.detect_shadow_ban`.  History entries are modelled by the
single numeric field the method reads (`.get("position", 0)` resp.
`.get("price", 0)`). -/
def detect_shadow_ban (position_history price_history : List ℚ)
    (st : EngineState) : Bool × EngineState :=
  match position_history.reverse with
  | latest :: previous :: _ =>
    let position_drop := latest - previous
    let price_changed : Bool :=
      match price_history.reverse with
      | p1 :: p2 :: _ => |p1 - p2| > 0.01
      | _ => false
    if position_drop > 50 ∧ price_changed = false then
      (true, pushRisk shadowBanRisk st)
    else
      (false, st)
  | _ => (false, st)

/-! ## FinancialCalculator (`financial_calculator.py`) -/

/-- `settings.VAT_RATE` (`0.22`, the 2026 rate, from `core/config.py`). -/
def VAT_RATE : ℚ := 0.22

/-- The dict returned by `FinancialCalculator.calculate_net_profit`. -/
structure FinancialBreakdown where
  gross_revenue : ℚ
  revenue_without_vat : ℚ
  vat_amount : ℚ
  cost_price : ℚ
  marketplace_fee : ℚ
  logistics_cost : ℚ
  return_losses : ℚ
  net_profit : ℚ
  margin_percentage : ℚ
  effective_margin_percentage : ℚ
  total_costs : ℚ
deriving DecidableEq, Repr

/-- `FinancialCalculator.calculate_net_profit`. -/
def calculate_net_profit (product_price cost_price logistics_cost
    marketplace_commission_percent return_rate_percent : ℚ)
    (include_vat : Bool) : FinancialBreakdown :=
  let gross_revenue := product_price
  let marketplace_fee := gross_revenue * (marketplace_commission_percent / 100)
  let revenue_without_vat :=
    if include_vat then gross_revenue / (1 + VAT_RATE) else gross_revenue
  let vat_amount :=
    if include_vat then gross_revenue - revenue_without_vat else 0
  let base_profit := revenue_without_vat - marketplace_fee - cost_price - logistics_cost
  let return_losses := gross_revenue * (return_rate_percent / 100)
  let net_profit := base_profit - return_losses
  let margin_percentage :=
    if gross_revenue > 0 then ((gross_revenue - cost_price) / gross_revenue) * 100 else 0
  let effective_margin :=
    if gross_revenue > 0 then (net_profit / gross_revenue) * 100 else 0
  { gross_revenue := round2 gross_revenue
    revenue_without_vat := round2 revenue_without_vat
    vat_amount := round2 vat_amount
    cost_price := round2 cost_price
    marketplace_fee := round2 marketplace_fee
    logistics_cost := round2 logistics_cost
    return_losses := round2 return_losses
    net_profit := round2 net_profit
    margin_percentage := round2 margin_percentage
    effective_margin_percentage := round2 effective_margin
    total_costs :=
      round2 (cost_price + marketplace_fee + logistics_cost + return_losses + vat_amount) }

/-- The dict returned by `FinancialCalculator.calculate_break_even_price`. -/
structure BreakEvenResult where
  recommended_price : ℚ
  breakeven_price : ℚ
  target_margin_percent : ℚ
  price_without_vat : ℚ
deriving DecidableEq, Repr

/-- `FinancialCalculator.calculate_break_even_price`. -/
def calculate_break_even_price (cost_price logistics_cost
    marketplace_commission_percent return_rate_percent : ℚ)
    (include_vat : Bool) (target_margin_percent : ℚ) : BreakEvenResult :=
  let total_base_cost := cost_price + logistics_cost
  let cost_multiplier :=
    1 / (1 - (marketplace_commission_percent / 100) - (return_rate_percent / 100))
  let margin_multiplier := 1 + (target_margin_percent / 100)
  let price_without_vat := total_base_cost * cost_multiplier * margin_multiplier
  let recommended_price :=
    if include_vat then price_without_vat * (1 + VAT_RATE) else price_without_vat
  let breakeven_price :=
    (total_base_cost * cost_multiplier) * (if include_vat then 1 + VAT_RATE else 1)
  { recommended_price := round2 recommended_price
    breakeven_price := round2 breakeven_price
    target_margin_percent := target_margin_percent
    price_without_vat := round2 price_without_vat }

/-! ## Helper lemmas about `round2` -/

lemma round_rat_eq (x : ℚ) (z : ℤ) (h1 : (z : ℚ) ≤ x + 1 / 2) (h2 : x + 1 / 2 < z + 1) :
    round x = z := by
  rw [round_eq]
  exact Int.floor_eq_iff.mpr ⟨h1, by exact_mod_cast h2⟩

lemma round2_eq_div (x : ℚ) (z : ℤ) (h1 : (z : ℚ) ≤ x * 100 + 1 / 2)
    (h2 : x * 100 + 1 / 2 < z + 1) : round2 x = z / 100 := by
  unfold round2
  rw [round_rat_eq (x * 100) z h1 h2]

lemma round2_intCast (n : ℤ) : round2 ((n : ℚ)) = n := by
  unfold round2
  have h : ((n : ℚ) * 100) = ((n * 100 : ℤ) : ℚ) := by push_cast; ring
  rw [h, round_intCast]
  push_cast
  ring

lemma round2_natCast (n : ℕ) : round2 ((n : ℚ)) = n := by
  have h := round2_intCast (n : ℤ)
  push_cast at h
  exact h

/-! ## Projection lemmas for the scorers -/

lemma calcLegal_fst (cert : Option (List Char)) (marking : Option Bool) (st : EngineState) :
    (calcLegal cert marking st).1 =
      min ((legalCert cert st).1 + (legalMarking marking (legalCert cert st).2).1) 40 := rfl

lemma calcLegal_snd (cert : Option (List Char)) (marking : Option Bool) (st : EngineState) :
    (calcLegal cert marking st).2 = (legalMarking marking (legalCert cert st).2).2 := rfl

lemma calcSeo_fst (rating : Option ℚ) (description : List Char)
    (keywords : List (List Char)) (st : EngineState) :
    (calcSeo rating description keywords st).1 =
      min ((seoRating rating st).1 + (seoDescription description (seoRating rating st).2).1)
        20 := rfl

lemma calcSeo_snd (rating : Option ℚ) (description : List Char)
    (keywords : List (List Char)) (st : EngineState) :
    (calcSeo rating description keywords st).2 =
      if keywords.length < 5 then
        pushRisk insufficientKeywordsRisk (seoDescription description (seoRating rating st).2).2
      else (seoDescription description (seoRating rating st).2).2 := rfl

lemma calcDelivery_fst (hours competitorAvg : Option ℤ) (st : EngineState) :
    (calcDelivery hours competitorAvg st).1 =
      if hours = none ∨ hours = some 0 then 15
      else min (if hours.getD 0 ≤ 18 then (30 : ℚ) else if hours.getD 0 ≤ 24 then 25
                else if hours.getD 0 ≤ 48 then 15 else 5) 30 := by
  simp only [calcDelivery]
  split_ifs <;> rfl

lemma calcPrice_none (comps : List (List Char × ℚ)) (st : EngineState) :
    calcPrice none comps st = (5, st) := rfl

lemma calcPrice_some (p : ℚ) (comps : List (List Char × ℚ)) (st : EngineState) :
    calcPrice (some p) comps st =
      if p = 0 then (5, st)
      else (max 0 (min (priceLoop p comps (10, st)).1 10), (priceLoop p comps (10, st)).2) := by
  simp only [calcPrice]

/-! ## Score range lemmas (used for the global invariant) -/

lemma calcLegal_nat (cert : Option (List Char)) (marking : Option Bool) (st : EngineState) :
    ∃ n : ℕ, (calcLegal cert marking st).1 = n ∧ n ≤ 40 := by
  have hc : (legalCert cert st).1 = 0 ∨ (legalCert cert st).1 = 5 ∨
      (legalCert cert st).1 = 20 := by
    rcases cert with _ | s
    · simp [legalCert]
    · simp only [legalCert]
      split_ifs <;> simp
  have hm : (legalMarking marking (legalCert cert st).2).1 = 0 ∨
      (legalMarking marking (legalCert cert st).2).1 = 20 := by
    rcases marking with _ | b
    · simp [legalMarking]
    · rcases b <;> simp [legalMarking]
  rcases hc with h | h | h <;> rcases hm with h2 | h2
  · exact ⟨0, by rw [calcLegal_fst, h, h2]; norm_num [min_def], by norm_num⟩
  · exact ⟨20, by rw [calcLegal_fst, h, h2]; norm_num [min_def], by norm_num⟩
  · exact ⟨5, by rw [calcLegal_fst, h, h2]; norm_num [min_def], by norm_num⟩
  · exact ⟨25, by rw [calcLegal_fst, h, h2]; norm_num [min_def], by norm_num⟩
  · exact ⟨20, by rw [calcLegal_fst, h, h2]; norm_num [min_def], by norm_num⟩
  · exact ⟨40, by rw [calcLegal_fst, h, h2]; norm_num [min_def], by norm_num⟩

lemma calcDelivery_nat (hours competitorAvg : Option ℤ) (st : EngineState) :
    ∃ n : ℕ, (calcDelivery hours competitorAvg st).1 = n ∧ n ≤ 30 := by
  rw [calcDelivery_fst]
  split_ifs <;>
    first
      | (refine ⟨15, ?_, ?_⟩ <;> norm_num [min_def]) <;> done
      | (refine ⟨30, ?_, ?_⟩ <;> norm_num [min_def]) <;> done
      | (refine ⟨25, ?_, ?_⟩ <;> norm_num [min_def]) <;> done
      | (refine ⟨5, ?_, ?_⟩ <;> norm_num [min_def]) <;> done

lemma seoRating_nat (rating : Option ℚ) (st : EngineState) :
    ∃ n : ℕ, (seoRating rating st).1 = n ∧ 3 ≤ n ∧ n ≤ 10 := by
  rcases rating with _ | r
  · exact ⟨5, by norm_num [seoRating], by norm_num⟩
  · simp only [seoRating]
    split_ifs <;>
      first
        | (refine ⟨5, ?_, ?_, ?_⟩ <;> norm_num) <;> done
        | (refine ⟨10, ?_, ?_, ?_⟩ <;> norm_num) <;> done
        | (refine ⟨7, ?_, ?_, ?_⟩ <;> norm_num) <;> done
        | (refine ⟨3, ?_, ?_, ?_⟩ <;> norm_num) <;> done

lemma seoDescription_nat (description : List Char) (st : EngineState) :
    ∃ n : ℕ, (seoDescription description st).1 = n ∧ 3 ≤ n ∧ n ≤ 10 := by
  unfold seoDescription
  split_ifs <;>
    first
      | (refine ⟨10, ?_, ?_, ?_⟩ <;> norm_num) <;> done
      | (refine ⟨7, ?_, ?_, ?_⟩ <;> norm_num) <;> done
      | (refine ⟨3, ?_, ?_, ?_⟩ <;> norm_num) <;> done

lemma calcSeo_nat (rating : Option ℚ) (description : List Char)
    (keywords : List (List Char)) (st : EngineState) :
    ∃ n : ℕ, (calcSeo rating description keywords st).1 = n ∧ n ≤ 20 := by
  obtain ⟨a, ha, ha3, ha10⟩ := seoRating_nat rating st
  obtain ⟨b, hb, hb3, hb10⟩ := seoDescription_nat description (seoRating rating st).2
  refine ⟨a + b, ?_, by omega⟩
  rw [calcSeo_fst, ha, hb, min_eq_left]
  · push_cast
    ring
  · have h1 : (a : ℚ) ≤ 10 := by exact_mod_cast ha10
    have h2 : (b : ℚ) ≤ 10 := by exact_mod_cast hb10
    linarith

lemma priceLoop_eq (p : ℚ) (comps : List (List Char × ℚ)) (s0 : ℚ) (st0 : EngineState) :
    priceLoop p comps (s0, st0) =
      (s0 - 3 * ((comps.filter fun c => decide (c.2 < p * 0.95)).length : ℚ),
       ⟨st0.risks ++ List.replicate
          (comps.filter fun c => decide (c.2 < p * 0.95)).length priceDumpingRisk,
        st0.recommendations⟩) := by
  induction comps generalizing s0 st0 with
  | nil => simp [priceLoop]
  | cons c rest ih =>
    by_cases h : c.2 < p * 0.95
    · have hf : List.filter (fun c => decide (c.2 < p * 0.95)) (c :: rest)
          = c :: List.filter (fun c => decide (c.2 < p * 0.95)) rest :=
        List.filter_cons_of_pos (by simpa using h)
      simp only [priceLoop, if_pos h, ih, hf, List.length_cons, pushRisk,
        Prod.mk.injEq]
      constructor
      · push_cast
        ring
      · simp [List.replicate_succ, List.append_assoc]
    · have hf : List.filter (fun c => decide (c.2 < p * 0.95)) (c :: rest)
          = List.filter (fun c => decide (c.2 < p * 0.95)) rest :=
        List.filter_cons_of_neg (by simpa using h)
      simp only [priceLoop, if_neg h, ih, hf]

lemma calcPrice_nat (price : Option ℚ) (comps : List (List Char × ℚ)) (st : EngineState) :
    ∃ n : ℕ, (calcPrice price comps st).1 = n ∧ n ≤ 10 := by
  rcases price with _ | p
  · exact ⟨5, by simp [calcPrice_none], by norm_num⟩
  · by_cases hp : p = 0
    · exact ⟨5, by simp [calcPrice_some, hp], by norm_num⟩
    · simp only [calcPrice_some, if_neg hp, priceLoop_eq]
      set k : ℕ := (comps.filter fun c => decide (c.2 < p * 0.95)).length with hk
      have hmin : min (10 - 3 * (k : ℚ)) 10 = 10 - 3 * (k : ℚ) := by
        rw [min_eq_left]
        have : (0 : ℚ) ≤ 3 * (k : ℚ) := by positivity
        linarith
      rw [hmin]
      rcases le_or_lt (k : ℕ) 3 with hk3 | hk3
      · refine ⟨10 - 3 * k, ?_, by omega⟩
        rw [max_eq_right]
        · push_cast [Nat.cast_sub (by omega : 3 * k ≤ 10)]
          ring
        · have : (k : ℚ) ≤ 3 := by exact_mod_cast hk3
          linarith
      · refine ⟨0, ?_, by omega⟩
        rw [max_eq_left]
        · norm_num
        · have : (4 : ℚ) ≤ (k : ℚ) := by exact_mod_cast hk3
          linarith

lemma audit_glue (lq dq sq pq : ℚ) (nl nd ns np : ℕ)
    (hl : lq = nl) (hd : dq = nd) (hs : sq = ns) (hp : pq = np)
    (hl40 : nl ≤ 40) (hd30 : nd ≤ 30) (hs20 : ns ≤ 20) (hp10 : np ≤ 10) :
    0 ≤ round2 (lq + dq + sq + pq) ∧ round2 (lq + dq + sq + pq) ≤ 100 ∧
    0 ≤ round2 lq ∧ round2 lq ≤ 40 ∧
    0 ≤ round2 dq ∧ round2 dq ≤ 30 ∧
    0 ≤ round2 sq ∧ round2 sq ≤ 20 ∧
    0 ≤ round2 pq ∧ round2 pq ≤ 10 ∧
    round2 (lq + dq + sq + pq) = round2 lq + round2 dq + round2 sq + round2 pq := by
  subst hl hd hs hp
  have hsum : ((nl : ℚ) + nd + ns + np) = ((nl + nd + ns + np : ℕ) : ℚ) := by
    push_cast
    ring
  rw [hsum, round2_natCast, round2_natCast, round2_natCast, round2_natCast, round2_natCast]
  refine ⟨by positivity, ?_, by positivity, ?_, by positivity, ?_,
    by positivity, ?_, by positivity, ?_, by push_cast; ring⟩
  · exact_mod_cast (by omega : nl + nd + ns + np ≤ 100)
  · exact_mod_cast hl40
  · exact_mod_cast hd30
  · exact_mod_cast hs20
  · exact_mod_cast hp10

/-- C1: every run of `calculate_total_score` yields `AuditScores` with
`0 ≤ total_score ≤ 100`, `legal_score ∈ [0,40]`, `delivery_score ∈ [0,30]`,
`seo_score ∈ [0,20]`, `price_score ∈ [0,10]`, and
`total_score = legal_score + delivery_score + seo_score + price_score`
(the 2-decimal rounding is exact here, all scores being integral). -/
theorem audit_scores_invariant (pd : ProductData) (cert : Option (List Char))
    (marking : Option Bool) (cd : Option ℤ) (st : EngineState) :
    0 ≤ (calculate_total_score pd cert marking cd st).1.total_score ∧
    (calculate_total_score pd cert marking cd st).1.total_score ≤ 100 ∧
    0 ≤ (calculate_total_score pd cert marking cd st).1.legal_score ∧
    (calculate_total_score pd cert marking cd st).1.legal_score ≤ 40 ∧
    0 ≤ (calculate_total_score pd cert marking cd st).1.delivery_score ∧
    (calculate_total_score pd cert marking cd st).1.delivery_score ≤ 30 ∧
    0 ≤ (calculate_total_score pd cert marking cd st).1.seo_score ∧
    (calculate_total_score pd cert marking cd st).1.seo_score ≤ 20 ∧
    0 ≤ (calculate_total_score pd cert marking cd st).1.price_score ∧
    (calculate_total_score pd cert marking cd st).1.price_score ≤ 10 ∧
    (calculate_total_score pd cert marking cd st).1.total_score =
      (calculate_total_score pd cert marking cd st).1.legal_score +
      (calculate_total_score pd cert marking cd st).1.delivery_score +
      (calculate_total_score pd cert marking cd st).1.seo_score +
      (calculate_total_score pd cert marking cd st).1.price_score := by
  obtain ⟨nl, hl, hl40⟩ := calcLegal_nat cert marking emptyEngine
  obtain ⟨nd, hd, hd30⟩ := calcDelivery_nat pd.delivery_time_hours cd
    (calcLegal cert marking emptyEngine).2
  obtain ⟨ns, hs, hs20⟩ := calcSeo_nat pd.rating pd.description pd.seo_keywords
    (calcDelivery pd.delivery_time_hours cd (calcLegal cert marking emptyEngine).2).2
  obtain ⟨np, hp, hp10⟩ := calcPrice_nat pd.current_price pd.competitor_prices
    (calcSeo pd.rating pd.description pd.seo_keywords
      (calcDelivery pd.delivery_time_hours cd (calcLegal cert marking emptyEngine).2).2).2
  exact audit_glue _ _ _ _ _ _ _ _ hl hd hs hp hl40 hd30 hs20 hp10

/-- C4: running `calculate_total_score` on an engine state left behind by a
previous run gives exactly the result of running it on a fresh engine —
the accumulators are reset at the start of every call, so no risk or
recommendation of the first call leaks into the second call's lists. -/
theorem audit_engine_reset (pdA pdB : ProductData) (certA certB : Option (List Char))
    (markingA markingB : Option Bool) (cdA cdB : Option ℤ) (st : EngineState) :
    calculate_total_score pdB certB markingB cdB
        (calculate_total_score pdA certA markingA cdA st).2
      = calculate_total_score pdB certB markingB cdB emptyEngine := rfl

lemma legalCert_fst_cases (cert : Option (List Char)) (st : EngineState) :
    (legalCert cert st).1 = 0 ∨ (legalCert cert st).1 = 5 ∨ (legalCert cert st).1 = 20 := by
  rcases cert with _ | s
  · simp [legalCert]
  · simp only [legalCert]
    split_ifs <;> simp

lemma susp_not_active {l : List Char} (h : substrB suspWord l = true) :
    l ∉ activeTokens := by
  intro hmem
  simp only [activeTokens, List.mem_cons, List.not_mem_nil, or_false] at hmem
  rcases hmem with h1 | h1 | h1 <;> subst h1 <;> exact absurd h (by decide)

lemma ann_not_active {l : List Char} (h : substrB annWord l = true) :
    l ∉ activeTokens := by
  intro hmem
  simp only [activeTokens, List.mem_cons, List.not_mem_nil, or_false] at hmem
  rcases hmem with h1 | h1 | h1 <;> subst h1 <;> exact absurd h (by decide)

/-- C8: with marking status `null`, an active-family certificate scores
exactly 40, a suspended-family one 25, an annulled-family one 20, and a
missing certificate 20 together with the critical `certificate_missing`
risk; a `null` marking always contributes the full 20 marking points,
while a present marking record with `is_valid` false contributes 0 and
appends the high-severity `marking_invalid` risk. -/
theorem legal_score_cases (s : List Char) (cert : Option (List Char)) (st : EngineState) :
    (lowerL s ∈ activeTokens → (calcLegal (some s) none st).1 = 40)
    ∧ (substrB suspWord (lowerL s) = true → (calcLegal (some s) none st).1 = 25)
    ∧ (substrB annWord (lowerL s) = true → substrB suspWord (lowerL s) = false →
        (calcLegal (some s) none st).1 = 20)
    ∧ (calcLegal none none st).1 = 20
    ∧ (calcLegal none none st).2.risks = st.risks ++ [certificateMissingRisk]
    ∧ (calcLegal cert none st).1 = (calcLegal cert (some false) st).1 + 20
    ∧ (calcLegal cert (some false) st).2.risks
        = (calcLegal cert none st).2.risks ++ [markingInvalidRisk] := by
  refine ⟨?_, ?_, ?_, ?_, ?_, ?_, ?_⟩
  · intro hA
    rw [calcLegal_fst]
    simp only [legalCert, if_pos hA]
    norm_num [legalMarking, min_def]
  · intro hS
    have hA : lowerL s ∉ activeTokens := susp_not_active hS
    rw [calcLegal_fst]
    simp only [legalCert, if_neg hA, if_pos hS]
    norm_num [legalMarking, min_def]
  · intro hN hS
    have hA : lowerL s ∉ activeTokens := ann_not_active hN
    rw [calcLegal_fst]
    simp only [legalCert, if_neg hA, hS, if_pos hN]
    norm_num [legalMarking, min_def]
  · rw [calcLegal_fst]
    norm_num [legalCert, legalMarking, min_def]
  · rw [calcLegal_snd]
    simp [legalCert, legalMarking, pushRisk]
  · have e1 : (calcLegal cert none st).1 = min ((legalCert cert st).1 + 20) 40 := by
      rw [calcLegal_fst]
      simp [legalMarking]
    have e2 : (calcLegal cert (some false) st).1 = min ((legalCert cert st).1 + 0) 40 := by
      rw [calcLegal_fst]
      simp [legalMarking]
    rcases legalCert_fst_cases cert st with h | h | h <;> rw [e1, e2, h] <;>
      norm_num [min_def]
  · rw [calcLegal_snd, calcLegal_snd]
    simp [legalMarking, pushRisk]

/-- Witness for C8: the three certificate families and the missing case,
instantiated at the concrete registry status strings. -/
theorem legal_score_cases_witness :
    (calcLegal (some "действует".data) none emptyEngine).1 = 40
    ∧ (calcLegal (some "приостановлен".data) none emptyEngine).1 = 25
    ∧ (calcLegal (some "аннулирован".data) none emptyEngine).1 = 20 :=
  ⟨(legal_score_cases "действует".data none emptyEngine).1 (by decide),
   (legal_score_cases "приостановлен".data none emptyEngine).2.1 (by decide),
   (legal_score_cases "аннулирован".data none emptyEngine).2.2.1 (by decide) (by decide)⟩

/-- Counterexample to C3: the status string `"status: active"` contains the
active-family term `"active"` as a (case-insensitive) substring, yet the
certificate branch awards it 0 certificate points (legal score 20 with a
`null` marking instead of the claimed 40), because the active family is
matched by exact equality against `["действует", "valid", "active"]`, not
by substring. -/
theorem certificate_substring_counterexample :
    substrB "active".data (lowerL "status: active".data) = true
    ∧ (calcLegal (some "status: active".data) none emptyEngine).1 = 20
    ∧ (calcLegal (some "status: active".data) none emptyEngine).1 ≠ 40 := by
  refine ⟨by decide, ?_, ?_⟩ <;>
    · rw [calcLegal_fst]
      simp only [legalCert]
      rw [if_neg (by decide), if_neg (by decide), if_neg (by decide)]
      norm_num [legalMarking, min_def]

/-- Amended C3: with a `null` marking, the certificate classification is —
full 20 certificate points (legal 40) iff the lowercased status is
*exactly* one of the active tokens `["действует", "valid", "active"]`;
the 5-point suspended branch (legal 25) iff it is not such an exact match
and contains the substring `"приостановлен"`; otherwise (including any
text merely containing an active term) the certificate contributes 0
(legal 20).  Substring matching applies only to the suspended and
annulled families. -/
theorem certificate_matching_amended (s : List Char) (st : EngineState) :
    ((calcLegal (some s) none st).1 = 40 ↔ lowerL s ∈ activeTokens)
    ∧ ((calcLegal (some s) none st).1 = 25 ↔
        lowerL s ∉ activeTokens ∧ substrB suspWord (lowerL s) = true)
    ∧ ((calcLegal (some s) none st).1 = 20 ↔
        lowerL s ∉ activeTokens ∧ substrB suspWord (lowerL s) = false) := by
  by_cases hA : lowerL s ∈ activeTokens
  · have hv : (calcLegal (some s) none st).1 = 40 := by
      rw [calcLegal_fst]
      simp only [legalCert, if_pos hA]
      norm_num [legalMarking, min_def]
    rw [hv]
    norm_num [hA]
  · by_cases hS : substrB suspWord (lowerL s) = true
    · have hv : (calcLegal (some s) none st).1 = 25 := by
        rw [calcLegal_fst]
        simp only [legalCert, if_neg hA, if_pos hS]
        norm_num [legalMarking, min_def]
      rw [hv]
      norm_num [hA, hS]
    · have hS' : substrB suspWord (lowerL s) = false := by simpa using hS
      have hv : (calcLegal (some s) none st).1 = 20 := by
        rw [calcLegal_fst]
        simp only [legalCert, if_neg hA, hS']
        by_cases hN : substrB annWord (lowerL s) = true
        · rw [if_pos hN]
          norm_num [legalMarking, min_def]
        · rw [if_neg hN]
          norm_num [legalMarking, min_def]
      rw [hv]
      norm_num [hA, hS']

lemma seoRating_spec (r : ℚ) (st : EngineState) :
    (seoRating (some r) st).1 =
        (if r = 0 then 5 else if r ≥ 4.7 then 10 else if r ≥ 4.0 then 7 else 3)
    ∧ (seoRating (some r) st).2.risks =
        st.risks ++ (if r ≠ 0 ∧ r < 4.0 then [lowRatingRisk] else []) := by
  constructor
  · simp only [seoRating]
    split_ifs <;> simp
  · simp only [seoRating]
    by_cases h0 : r = 0
    · rw [if_pos h0]
      have hn : ¬(r ≠ 0 ∧ r < 4.0) := fun h => h.1 h0
      simp [hn]
    · rw [if_neg h0]
      by_cases h47 : r ≥ 4.7
      · rw [if_pos h47]
        have hn : ¬(r ≠ 0 ∧ r < 4.0) := fun h => absurd h.2 (by linarith)
        simp [hn, pushRec]
      · rw [if_neg h47]
        by_cases h40 : r ≥ 4.0
        · rw [if_pos h40]
          have hn : ¬(r ≠ 0 ∧ r < 4.0) := fun h => absurd h.2 (by linarith)
          simp [hn, pushRec]
        · rw [if_neg h40]
          have hy : r ≠ 0 ∧ r < 4.0 := ⟨h0, lt_of_not_ge h40⟩
          simp [hy, pushRisk]

lemma seoDescription_spec (desc : List Char) (st : EngineState) :
    (seoDescription desc st).1 =
        (if desc.length ≥ 1000 then 10 else if desc.length ≥ 500 then 7 else 3)
    ∧ (seoDescription desc st).2.risks =
        st.risks ++ (if desc.length < 500 then [incompleteDescriptionRisk] else []) := by
  constructor
  · unfold seoDescription
    split_ifs <;> simp
  · unfold seoDescription
    split_ifs <;>
      first
        | (simp [pushRisk, pushRec]; done)
        | (exfalso; omega)

/-- Amended C6: the rating sub-score is 10 for `r ≥ 4.7`, 7 for
`4.0 ≤ r < 4.7`, and 3 with the high-severity `low_rating` risk exactly
when `r ≠ 0 ∧ r < 4.0`; a `null` rating — and, because the source tests
`if rating:` by Python truthiness, also the rating `0` — yields the
neutral 5 with no risk. -/
theorem seo_rating_amended (r : ℚ) (desc : List Char) (kw : List (List Char))
    (st : EngineState) :
    (calcSeo (some r) desc kw st).1 =
        (if r = 0 then 5 else if r ≥ 4.7 then 10 else if r ≥ 4.0 then 7 else 3)
      + (if desc.length ≥ 1000 then 10 else if desc.length ≥ 500 then 7 else 3)
    ∧ (calcSeo none desc kw st).1 =
        5 + (if desc.length ≥ 1000 then 10 else if desc.length ≥ 500 then 7 else 3)
    ∧ (calcSeo (some r) desc kw st).2.risks =
        st.risks
          ++ (if r ≠ 0 ∧ r < 4.0 then [lowRatingRisk] else [])
          ++ (if desc.length < 500 then [incompleteDescriptionRisk] else [])
          ++ (if kw.length < 5 then [insufficientKeywordsRisk] else [])
    ∧ (calcSeo none desc kw st).2.risks =
        st.risks
          ++ (if desc.length < 500 then [incompleteDescriptionRisk] else [])
          ++ (if kw.length < 5 then [insufficientKeywordsRisk] else []) := by
  have hbA : (if r = 0 then (5:ℚ) else if r ≥ 4.7 then 10 else if r ≥ 4.0 then 7 else 3) ≤ 10 := by
    split_ifs <;> norm_num
  have hbB : (if desc.length ≥ 1000 then (10:ℚ) else if desc.length ≥ 500 then 7 else 3) ≤ 10 := by
    split_ifs <;> norm_num
  refine ⟨?_, ?_, ?_, ?_⟩
  · rw [calcSeo_fst, (seoRating_spec r st).1,
      (seoDescription_spec desc (seoRating (some r) st).2).1]
    exact min_eq_left (by linarith)
  · rw [calcSeo_fst]
    simp only [seoRating]
    rw [(seoDescription_spec desc st).1]
    exact min_eq_left (by linarith)
  · rw [calcSeo_snd]
    by_cases hkw : kw.length < 5
    · rw [if_pos hkw]
      simp [pushRisk, (seoDescription_spec desc (seoRating (some r) st).2).2,
        (seoRating_spec r st).2, hkw, List.append_assoc]
    · rw [if_neg hkw]
      simp [(seoDescription_spec desc (seoRating (some r) st).2).2,
        (seoRating_spec r st).2, hkw, List.append_assoc]
  · rw [calcSeo_snd]
    by_cases hkw : kw.length < 5
    · rw [if_pos hkw]
      simp only [seoRating]
      simp [pushRisk, (seoDescription_spec desc st).2, hkw, List.append_assoc]
    · rw [if_neg hkw]
      simp only [seoRating]
      simp [(seoDescription_spec desc st).2, hkw, List.append_assoc]

/-- Counterexample to C6: the non-null rating `0` is `< 4.0`, yet the SEO
scorer gives it the neutral rating sub-score 5 (total 8 with an empty
description and no keywords) and appends no `low_rating` risk, because
the source's `if rating:` treats the float `0.0` as falsy; the claim
predicts sub-score 3 with a risk (total 6). -/
theorem seo_rating_zero_counterexample :
    (calcSeo (some 0) [] [] emptyEngine).1 = 8
    ∧ (calcSeo (some 0) [] [] emptyEngine).2.risks
        = [incompleteDescriptionRisk, insufficientKeywordsRisk]
    ∧ (calcSeo (some 0) [] [] emptyEngine).1 ≠ 6 := by
  have h1 : (calcSeo (some 0) [] [] emptyEngine).1 = 8 := by
    rw [calcSeo_fst]
    norm_num [seoRating, seoDescription, min_def]
  refine ⟨h1, ?_, by rw [h1]; norm_num⟩
  rw [calcSeo_snd]
  norm_num [seoRating, seoDescription, pushRisk, emptyEngine]

/-- Amended C7: for every non-null, *nonzero* `current_price`, the score is
`max 0 (10 − 3·k)` where `k` counts the platforms whose price is strictly
below `current_price × 0.95`, with one medium-severity `price_dumping`
risk appended per such platform; a `null` — or, by Python truthiness,
zero — price returns the neutral 5 with no risk.  At price 1000 a
competitor at 950 (exactly 95%) incurs no penalty and one at 940 scores 7
with exactly one `price_dumping` risk. -/
theorem price_score_amended (p : ℚ) (comps : List (List Char × ℚ)) (st : EngineState) :
    (p ≠ 0 → calcPrice (some p) comps st =
      (max 0 (10 - 3 * ((comps.filter fun c => decide (c.2 < p * 0.95)).length : ℚ)),
       ⟨st.risks ++ List.replicate
          (comps.filter fun c => decide (c.2 < p * 0.95)).length priceDumpingRisk,
        st.recommendations⟩))
    ∧ calcPrice none comps st = (5, st)
    ∧ calcPrice (some 1000) [("x".data, 950)] st = (10, st)
    ∧ calcPrice (some 1000) [("x".data, 940)] st
        = (7, ⟨st.risks ++ [priceDumpingRisk], st.recommendations⟩) := by
  refine ⟨?_, calcPrice_none comps st, ?_, ?_⟩
  · intro hp
    rw [calcPrice_some, if_neg hp, priceLoop_eq]
    have hk : (0:ℚ) ≤ 3 * ((comps.filter fun c => decide (c.2 < p * 0.95)).length : ℚ) := by
      positivity
    rw [min_eq_left (by linarith)]
  · rw [calcPrice_some, if_neg (by norm_num)]
    simp only [priceLoop]
    rw [if_neg (by norm_num)]
    simp only [priceLoop]
    norm_num [min_def, max_def]
  · rw [calcPrice_some, if_neg (by norm_num)]
    simp only [priceLoop]
    rw [if_pos (by norm_num)]
    simp only [priceLoop]
    norm_num [min_def, max_def, pushRisk]

/-- Counterexample to C7: the non-null price `0` short-circuits to the
neutral score 5 (the source tests `if not current_price:`), so the claimed
start-at-10-and-subtract rule does not apply to it: with no competitors
the claim predicts 10, the code returns 5. -/
theorem price_score_zero_counterexample :
    (calcPrice (some 0) [] emptyEngine).1 = 5
    ∧ (calcPrice (some 0) [] emptyEngine).1 ≠ 10 := by
  have h1 : (calcPrice (some 0) [] emptyEngine).1 = 5 := by
    rw [calcPrice_some, if_pos rfl]
  exact ⟨h1, by rw [h1]; norm_num⟩

/-- Witness for the amended C7 at a nonzero price. -/
theorem price_score_amended_witness :
    calcPrice (some 1000) [("x".data, 940)] emptyEngine
      = (7, ⟨[priceDumpingRisk], []⟩) := by
  have h := (price_score_amended 1000 [("x".data, 940)] emptyEngine).2.2.2
  simpa [emptyEngine] using h

/-- C9: shadow-ban detection returns `true` exactly when the position
history has at least two entries, the latest position exceeds the previous
one by more than 50, and the price is unchanged (fewer than two price
entries, or the last two differ by at most 0.01); it appends exactly one
critical `shadow_ban_detected` risk when — and only when — it returns
`true`.  In particular positions `[5, 60]` with prices `[1000, 1000]`
flag a ban, prices `[1000, 500]` do not, and a single entry does not. -/
theorem shadow_ban_spec (pos price : List ℚ) (st : EngineState) :
    detect_shadow_ban pos price st =
      (if 2 ≤ pos.length
          ∧ pos.reverse.headD 0 - pos.reverse.tail.headD 0 > 50
          ∧ ¬(2 ≤ price.length
              ∧ |price.reverse.headD 0 - price.reverse.tail.headD 0| > 0.01)
       then (true, pushRisk shadowBanRisk st) else (false, st))
    ∧ detect_shadow_ban [5, 60] [1000, 1000] st = (true, pushRisk shadowBanRisk st)
    ∧ detect_shadow_ban [5, 60] [1000, 500] st = (false, st)
    ∧ detect_shadow_ban [5] [1000] st = (false, st) := by
  refine ⟨?_, ?_, ?_, ?_⟩
  · rcases hpos : pos.reverse with _ | ⟨a, t⟩
    · have h0 : pos.length = 0 := by
        rw [← List.length_reverse pos, hpos]
        rfl
      simp only [detect_shadow_ban, hpos]
      rw [if_neg (by simp [h0])]
    · rcases t with _ | ⟨b, rest⟩
      · have h1 : pos.length = 1 := by
          rw [← List.length_reverse pos, hpos]
          rfl
        simp only [detect_shadow_ban, hpos]
        rw [if_neg (by simp [h1])]
      · have hlen : 2 ≤ pos.length := by
          rw [← List.length_reverse pos, hpos]
          simp
        rcases hpr : price.reverse with _ | ⟨p1, u⟩
        · have hp0 : price.length = 0 := by
            rw [← List.length_reverse price, hpr]
            rfl
          simp only [detect_shadow_ban, hpos, hpr]
          by_cases hd : a - b > 50
          · rw [if_pos ⟨hd, trivial⟩, if_pos ⟨hlen, by simp [hpos, hd], by simp [hp0]⟩]
          · rw [if_neg (by simp [hd]), if_neg (by simp [hpos, hd])]
        · rcases u with _ | ⟨p2, v⟩
          · have hp1 : price.length = 1 := by
              rw [← List.length_reverse price, hpr]
              rfl
            simp only [detect_shadow_ban, hpos, hpr]
            by_cases hd : a - b > 50
            · rw [if_pos ⟨hd, trivial⟩, if_pos ⟨hlen, by simp [hpos, hd], by simp [hp1]⟩]
            · rw [if_neg (by simp [hd]), if_neg (by simp [hpos, hd])]
          · have hp2 : 2 ≤ price.length := by
              rw [← List.length_reverse price, hpr]
              simp
            simp only [detect_shadow_ban, hpos, hpr]
            by_cases hd : a - b > 50
            · by_cases hc : |p1 - p2| > 0.01
              · rw [if_neg (by simp [hc]), if_neg (by simp [hpos, hpr, hd, hc, hp2])]
              · rw [if_pos ⟨hd, by simp [hc]⟩,
                  if_pos ⟨hlen, by simp [hpos, hd], by simp [hpr, hc]⟩]
            · rw [if_neg (by simp [hd]), if_neg (by simp [hpos, hd])]
  · simp only [detect_shadow_ban, List.reverse_cons, List.reverse_nil, List.nil_append,
      List.cons_append]
    rw [if_pos (by norm_num)]
  · simp only [detect_shadow_ban, List.reverse_cons, List.reverse_nil, List.nil_append,
      List.cons_append]
    rw [if_neg (by norm_num)]
  · simp only [detect_shadow_ban, List.reverse_cons, List.reverse_nil, List.nil_append,
      List.cons_append]

lemma round2_zero : round2 0 = 0 := by
  have h := round2_natCast 0
  simpa using h

/-- C5: `calculate_net_profit` extracts pre-VAT revenue as
`price / (1 + VAT_RATE)` with `vat_amount = price − pre-VAT revenue` when
VAT is included (identity and 0 when excluded), computes return losses on
the gross price, and sets net profit to pre-VAT revenue minus fee, cost,
logistics and return losses — all rounded to 2 decimals; in particular
price 1220 with commission 10, returns 0, VAT included yields
`vat_amount = 220.00` and `revenue_without_vat = 1000.00`. -/
theorem net_profit_formulas (price cost logi comm ret : ℚ) (vat : Bool)
    (hprice : 0 < price) (hcost : 0 < cost) (hlogi : 0 ≤ logi)
    (hcomm : 0 ≤ comm ∧ comm ≤ 100) (hret : 0 ≤ ret ∧ ret ≤ 100) :
    (calculate_net_profit price cost logi comm ret vat).revenue_without_vat
        = round2 (if vat then price / (1 + VAT_RATE) else price)
    ∧ (calculate_net_profit price cost logi comm ret vat).vat_amount
        = round2 (if vat then price - price / (1 + VAT_RATE) else 0)
    ∧ (calculate_net_profit price cost logi comm ret vat).return_losses
        = round2 (price * (ret / 100))
    ∧ (calculate_net_profit price cost logi comm ret vat).net_profit
        = round2 ((if vat then price / (1 + VAT_RATE) else price)
            - price * (comm / 100) - cost - logi - price * (ret / 100))
    ∧ (calculate_net_profit 1220 500 0 10 0 true).vat_amount = 220
    ∧ (calculate_net_profit 1220 500 0 10 0 true).revenue_without_vat = 1000 := by
  refine ⟨?_, ?_, rfl, ?_, ?_, ?_⟩
  · cases vat <;> rfl
  · cases vat <;> rfl
  · cases vat <;> rfl
  · have e : (calculate_net_profit 1220 500 0 10 0 true).vat_amount
        = round2 (1220 - 1220 / (1 + VAT_RATE)) := rfl
    have h2 : (1220 : ℚ) - 1220 / (1 + VAT_RATE) = ((220 : ℕ) : ℚ) := by
      norm_num [VAT_RATE]
    rw [e, h2, round2_natCast]
    norm_num
  · have e : (calculate_net_profit 1220 500 0 10 0 true).revenue_without_vat
        = round2 (1220 / (1 + VAT_RATE)) := rfl
    have h2 : (1220 : ℚ) / (1 + VAT_RATE) = ((1000 : ℕ) : ℚ) := by
      norm_num [VAT_RATE]
    rw [e, h2, round2_natCast]
    norm_num

/-- Witness for C5 at the spec's own example input. -/
theorem net_profit_formulas_witness :
    (calculate_net_profit 1220 500 0 10 0 true).vat_amount = 220
    ∧ (calculate_net_profit 1220 500 0 10 0 true).revenue_without_vat = 1000 :=
  ⟨(net_profit_formulas 1220 500 0 10 0 true (by norm_num) (by norm_num) (by norm_num)
      ⟨by norm_num, by norm_num⟩ ⟨by norm_num, by norm_num⟩).2.2.2.2.1,
   (net_profit_formulas 1220 500 0 10 0 true (by norm_num) (by norm_num) (by norm_num)
      ⟨by norm_num, by norm_num⟩ ⟨by norm_num, by norm_num⟩).2.2.2.2.2⟩

/-- C10: `calculate_net_profit` is total on all real-valued inputs — when
`product_price ≤ 0` the margin guard returns both percentages as `0.0`
while every other breakdown field is still computed and rounded. -/
theorem net_profit_nonpositive_price (price cost logi comm ret : ℚ) (vat : Bool)
    (h : price ≤ 0) :
    (calculate_net_profit price cost logi comm ret vat).margin_percentage = 0
    ∧ (calculate_net_profit price cost logi comm ret vat).effective_margin_percentage = 0
    ∧ (calculate_net_profit price cost logi comm ret vat).gross_revenue = round2 price
    ∧ (calculate_net_profit price cost logi comm ret vat).cost_price = round2 cost
    ∧ (calculate_net_profit price cost logi comm ret vat).net_profit
        = round2 ((if vat then price / (1 + VAT_RATE) else price)
            - price * (comm / 100) - cost - logi - price * (ret / 100)) := by
  have hng : ¬ price > 0 := not_lt.mpr h
  refine ⟨?_, ?_, rfl, rfl, ?_⟩
  · have e : (calculate_net_profit price cost logi comm ret vat).margin_percentage
        = round2 (if price > 0 then ((price - cost) / price) * 100 else 0) := rfl
    rw [e, if_neg hng, round2_zero]
  · have e : (calculate_net_profit price cost logi comm ret vat).effective_margin_percentage
        = round2 (if price > 0 then
            (((if vat then price / (1 + VAT_RATE) else price)
              - price * (comm / 100) - cost - logi - price * (ret / 100)) / price) * 100
          else 0) := by cases vat <;> rfl
    rw [e, if_neg hng, round2_zero]
  · cases vat <;> rfl

/-- Witness for C10 at `product_price = 0`. -/
theorem net_profit_nonpositive_price_witness :
    (calculate_net_profit 0 500 0 10 5 true).margin_percentage = 0
    ∧ (calculate_net_profit 0 500 0 10 5 true).effective_margin_percentage = 0 :=
  ⟨(net_profit_nonpositive_price 0 500 0 10 5 true (by norm_num)).1,
   (net_profit_nonpositive_price 0 500 0 10 5 true (by norm_num)).2.1⟩

/-- C2 fails on the code: with cost 100, commission 10 %, return rate 10 %
and VAT included, `calculate_break_even_price` at target margin 0 returns
152.50 as both breakeven and recommended price, yet feeding 152.50 back
into `calculate_net_profit` (same parameters) yields `net_profit = −5.50`
and `effective_margin_percentage = −3.61`, not the promised 0 % margin:
the break-even formula divides commission and returns out of the pre-VAT
price while `calculate_net_profit` charges them on the VAT-inclusive
gross price. -/
theorem break_even_roundtrip_bug :
    (calculate_break_even_price 100 0 10 10 true 0).breakeven_price = 152.5
    ∧ (calculate_break_even_price 100 0 10 10 true 0).recommended_price = 152.5
    ∧ (calculate_net_profit 152.5 100 0 10 10 true).net_profit = -5.5
    ∧ (calculate_net_profit 152.5 100 0 10 10 true).effective_margin_percentage = -3.61
    ∧ (calculate_net_profit 152.5 100 0 10 10 true).net_profit ≠ 0
    ∧ (calculate_net_profit 152.5 100 0 10 10 true).effective_margin_percentage ≠ 0 := by
  have e1 : (calculate_break_even_price 100 0 10 10 true 0).breakeven_price
      = round2 (((100 + 0) * (1 / (1 - 10 / 100 - 10 / 100))) * (1 + VAT_RATE)) := rfl
  have e2 : (calculate_break_even_price 100 0 10 10 true 0).recommended_price
      = round2 ((100 + 0) * (1 / (1 - 10 / 100 - 10 / 100)) * (1 + 0 / 100) * (1 + VAT_RATE)) := rfl
  have e3 : (calculate_net_profit 152.5 100 0 10 10 true).net_profit
      = round2 (152.5 / (1 + VAT_RATE) - 152.5 * (10 / 100) - 100 - 0
          - 152.5 * (10 / 100)) := rfl
  have e4 : (calculate_net_profit 152.5 100 0 10 10 true).effective_margin_percentage
      = round2 (if (152.5 : ℚ) > 0 then
          ((152.5 / (1 + VAT_RATE) - 152.5 * (10 / 100) - 100 - 0
            - 152.5 * (10 / 100)) / 152.5) * 100 else 0) := rfl
  have h3 : (calculate_net_profit 152.5 100 0 10 10 true).net_profit = -5.5 := by
    rw [e3, round2_eq_div _ (-550) (by norm_num [VAT_RATE]) (by norm_num [VAT_RATE])]
    norm_num
  have h4 : (calculate_net_profit 152.5 100 0 10 10 true).effective_margin_percentage
      = -3.61 := by
    rw [e4, if_pos (by norm_num),
      round2_eq_div _ (-361) (by norm_num [VAT_RATE]) (by norm_num [VAT_RATE])]
    norm_num
  refine ⟨?_, ?_, h3, h4, by rw [h3]; norm_num, by rw [h4]; norm_num⟩
  · rw [e1, round2_eq_div _ 15250 (by norm_num [VAT_RATE]) (by norm_num [VAT_RATE])]
    norm_num
  · rw [e2, round2_eq_div _ 15250 (by norm_num [VAT_RATE]) (by norm_num [VAT_RATE])]
    norm_num
